import Mathlib

/-!
# Playback statistics of the DASH player page

A shallow embedding of `src/dash/js/player.js`: the statistics record `stats`, the
closure state of `initPlayer`, the listeners the file subscribes on the player, and
`calculateStatistics`.

Modelling conventions.

* A JavaScript `number` that holds a measurement (clock readings, durations, quality
  indices, the average) is an exact rational `ℚ`; rounding of doubles is not modelled.
  The statements about clock-derived values (`initialDelay`, `totalStallDuration`) use
  the expression the code evaluates, with the same operands in the same order.  The two
  counters (`stallCount`, `qualityChangeCount`), which start at `0` and are only ever
  incremented by one, are natural numbers.
* What a callback reads from its environment while it runs (`performance.now()`,
  `new Date()`, the time string used by `logEvent`, `player.getBufferLength()`) is
  passed in as a `Reading`.
* Number formatting (`"" + x`, `x.toFixed(2)`) is a built-in of the language and is taken
  as a parameter `Fmt`.
* The page elements the callbacks write to are a record `Page`; the elements that the
  code dereferences without a guard are assumed to exist, `#stats-output` (guarded in
  `calculateStatistics`) is optional.
* The player's event bus is external.  It is modelled as: an event invokes every listener
  registered under its key, once each, in registration order; `player.off` removes the
  listener it is given; and `player.on` raises when the event type it is given is
  `undefined`, which is what looking up a name that is no constant of
  `dashjs.MediaPlayer.events` yields.  Events are identified by the name of their
  constant in that table.
-/

namespace DashPlayer

/-- One entry of `stats.switchHistory` (player.js:83-87); `from_` and `to_` are the
properties `from` and `to`, which are reserved words here. -/
structure SwitchEvent where
  timestamp : Nat
  from_ : ℚ
  to_ : ℚ
deriving DecidableEq

/-- One entry of `stats.bufferEvents`: a `"start"` entry (player.js:102-106) has no
`duration`, an `"end"` entry (player.js:114-119) has one. -/
structure BufferEvent where
  timestamp : Nat
  type : String
  duration : Option ℚ
  bufferLevel : ℚ
deriving DecidableEq

/-- The statistics container (player.js:31-40). -/
structure Stats where
  switchHistory : List SwitchEvent
  bufferEvents : List BufferEvent
  initialDelay : ℚ
  totalStallDuration : ℚ
  stallCount : Nat
  averageQuality : ℚ
  qualityChangeCount : Nat
  lastQuality : ℚ
deriving DecidableEq

/-- The initial value of `stats` (player.js:31-40). -/
def initialStats : Stats :=
  { switchHistory := []
    bufferEvents := []
    initialDelay := 0
    totalStallDuration := 0
    stallCount := 0
    averageQuality := 0
    qualityChangeCount := 0
    lastQuality := -1 }

/-- What one callback invocation reads from its environment. -/
structure Reading where
  /-- The value of `performance.now()`. -/
  now : ℚ
  /-- The value of `new Date()`, as a number of milliseconds. -/
  date : Nat
  /-- The value of `new Date().toTimeString().split(' ')[0]` (player.js:153). -/
  timeString : String
  /-- The value of `player.getBufferLength()`. -/
  bufferLength : ℚ

/-- Number formatting of the language: `"" + x` and `x.toFixed(2)`. -/
structure Fmt where
  toStr : ℚ → String
  toFixed2 : ℚ → String

/-- The page elements written by the script (player.js:55-61, 140) and the console. -/
structure Page where
  /-- The `innerText` of `#video-representation`. -/
  videoInfo : String
  /-- The `innerText` of `#buffer-level`. -/
  bufferLevel : String
  /-- The `innerText` of `#quality-index`. -/
  qualityIndex : String
  /-- The `innerText` of `#max-index`. -/
  maxIndex : String
  /-- The `innerHTML` of `#available-qualities`. -/
  availableQualities : String
  /-- The `innerText` of the children of `#event-log`, in document order. -/
  eventLog : List String
  /-- The `innerHTML` of `#stats-output`, `none` when the element is absent. -/
  statsOutput : Option String
  /-- The `style.display` of `#stats-output`. -/
  statsOutputDisplay : String
  /-- The lines written by `console.log`. -/
  console : List String
deriving DecidableEq

/-- A registered `onBufferLoaded` closure (player.js:110-123): `id` stands for the identity
of the function object, `stallStart` is the variable it captured. -/
structure LoadedListener where
  id : Nat
  stallStart : ℚ
deriving DecidableEq

/-- The mutable state of the page script: `stats`, the page, the locals of `initPlayer`
captured by its callbacks, and the `BUFFER_LOADED` listeners currently registered. -/
structure PlayerState where
  stats : Stats
  page : Page
  /-- The local `startTime` (player.js:64). -/
  startTime : ℚ
  /-- The local `playbackStarted` (player.js:65). -/
  playbackStarted : Bool
  /-- The registered `onBufferLoaded` listeners, in registration order. -/
  loadedListeners : List LoadedListener
  /-- The number of `onBufferLoaded` closures created so far. -/
  nextListenerId : Nat
deriving DecidableEq

/-- The function `logEvent` (player.js:152-158). -/
def logEvent (r : Reading) (event : String) (p : Page) : Page :=
  { p with eventLog := p.eventLog ++ [r.timeString ++ " - " ++ event] }

/-- The `PLAYBACK_STARTED` listener (player.js:68-74). -/
def onPlaybackStarted (F : Fmt) (r : Reading) (s : PlayerState) : PlayerState :=
  if !s.playbackStarted then
    let initialDelay := (r.now - s.startTime) / 1000
    { s with
      playbackStarted := true
      stats := { s.stats with initialDelay := initialDelay }
      page := logEvent r ("Initial delay: " ++ F.toFixed2 initialDelay ++ "s") s.page }
  else s

/-- The `QUALITY_CHANGE_RENDERED` listener (player.js:76-92). -/
def onQualityChangeRendered (F : Fmt) (newQuality : ℚ) (r : Reading) (s : PlayerState) :
    PlayerState :=
  let page := { s.page with videoInfo := F.toStr newQuality, qualityIndex := F.toStr newQuality }
  let stats : Stats :=
    if s.stats.lastQuality ≠ -1 ∧ s.stats.lastQuality ≠ newQuality then
      { s.stats with
        qualityChangeCount := s.stats.qualityChangeCount + 1
        switchHistory := s.stats.switchHistory ++
          [{ timestamp := r.date, from_ := s.stats.lastQuality, to_ := newQuality }] }
    else s.stats
  { s with
    stats := { stats with lastQuality := newQuality }
    page := logEvent r ("Quality changed to: " ++ F.toStr newQuality) page }

/-- The `BUFFER_LEVEL_UPDATED` listener (player.js:94-96). -/
def onBufferLevelUpdated (F : Fmt) (bufferLevel : ℚ) (s : PlayerState) : PlayerState :=
  { s with page := { s.page with bufferLevel := F.toFixed2 bufferLevel } }

/-- The `BUFFER_EMPTY` listener (player.js:98-126): counts the stall, records a `"start"`
entry, and registers a fresh `onBufferLoaded` closure that captured `stallStart`. -/
def onBufferEmpty (r : Reading) (s : PlayerState) : PlayerState :=
  let stallStart := r.now
  { s with
    stats := { s.stats with
      stallCount := s.stats.stallCount + 1
      bufferEvents := s.stats.bufferEvents ++
        [{ timestamp := r.date, type := "start", duration := none,
           bufferLevel := r.bufferLength }] }
    page := logEvent r "Buffer empty - stall started" s.page
    loadedListeners := s.loadedListeners ++ [{ id := s.nextListenerId, stallStart := stallStart }]
    nextListenerId := s.nextListenerId + 1 }

/-- The closure `onBufferLoaded` (player.js:110-123), for the listener `l`: adds the stall
duration, records an `"end"` entry, and unregisters itself (`player.off`). -/
def onBufferLoaded (F : Fmt) (l : LoadedListener) (r : Reading) (s : PlayerState) :
    PlayerState :=
  let stallDuration := (r.now - l.stallStart) / 1000
  { s with
    stats := { s.stats with
      totalStallDuration := s.stats.totalStallDuration + stallDuration
      bufferEvents := s.stats.bufferEvents ++
        [{ timestamp := r.date, type := "end", duration := some stallDuration,
           bufferLevel := r.bufferLength }] }
    page := logEvent r
      ("Buffer loaded - stall ended after " ++ F.toFixed2 stallDuration ++ "s") s.page
    loadedListeners := s.loadedListeners.filter (fun m => m.id ≠ l.id) }

/-- The invocation of the listeners `ls` on a `BUFFER_LOADED` event, in order; the
invocation number `i` reads `rs i`. -/
def fireLoaded (F : Fmt) (rs : Nat → Reading) : List LoadedListener → Nat → PlayerState →
    PlayerState
  | [], _, s => s
  | l :: ls, i, s => fireLoaded F rs ls (i + 1) (onBufferLoaded F l (rs i) s)

/-- The dispatch of a `BUFFER_LOADED` event: every `onBufferLoaded` listener registered
when the event arrives is invoked. -/
def onBufferLoadedEvent (F : Fmt) (rs : Nat → Reading) (s : PlayerState) : PlayerState :=
  fireLoaded F rs s.loadedListeners 0 s

/-- An entry of `player.getBitrateInfoListFor("video")`. -/
structure BitrateInfo where
  bitrate : ℚ
  width : ℚ
  height : ℚ

/-- The function `Math.round` on rationals: the nearest integer, ties upwards. -/
def mathRound (x : ℚ) : ℚ := ((⌊x + 1 / 2⌋ : ℤ) : ℚ)

/-- The `STREAM_INITIALIZED` listener (player.js:128-141). -/
def onStreamInitialized (F : Fmt) (bitrates : List BitrateInfo) (s : PlayerState) :
    PlayerState :=
  let bitrateList := (bitrates.foldl
    (fun (acc : String × Nat) bitrate =>
      (acc.1 ++ "Quality " ++ F.toStr acc.2 ++ ": " ++ F.toStr (mathRound (bitrate.bitrate / 1000))
        ++ " kbps (" ++ F.toStr bitrate.width ++ "x" ++ F.toStr bitrate.height ++ ")<br>",
       acc.2 + 1))
    ("", 0)).1
  { s with page := { s.page with
      maxIndex := F.toStr ((bitrates.length : ℚ) - 1)
      availableQualities := bitrateList } }

/-- The list `events` of other basic events (player.js:161-164). -/
def events : List String :=
  ["playbackStarted", "playbackPaused", "playbackSeeking", "bufferStalled", "error"]

/-- The method `toUpperCase` on strings of ASCII characters. -/
def toUpperCase (s : String) : String := String.mk (s.data.map Char.toUpper)

/-- The key under which the logging callback of the basic event `event` is registered:
the property name looked up in `dashjs.MediaPlayer.events` (player.js:167). -/
def basicEventKey (event : String) : String := toUpperCase event

/-- The names of the event constants under which the file registers its other listeners
(player.js:68, 76, 94, 98, 125, 128). -/
def subscribedKeys : List String :=
  ["PLAYBACK_STARTED", "QUALITY_CHANGE_RENDERED", "BUFFER_LEVEL_UPDATED", "BUFFER_EMPTY",
   "BUFFER_LOADED", "STREAM_INITIALIZED"]

/-- The constants of the library table `dashjs.MediaPlayer.events` that concern this file:
the six it subscribes to, and those of the pause, seek and error events.  The table is
external; its constants are all written in UPPER_SNAKE_CASE. -/
def eventConstants : List String :=
  subscribedKeys ++ ["PLAYBACK_PAUSED", "PLAYBACK_SEEKING", "ERROR"]

/-- The property lookup `dashjs.MediaPlayer.events[key]` (player.js:167), for the keys the
loop computes: `none` stands for `undefined`, the value for a name that is no constant of
the table. -/
def lookupEvent (key : String) : Option String :=
  if key ∈ eventConstants then some key else none

/-- The loop `events.forEach` (player.js:166-170) over the names `names`: each name has its
logging callback registered under the looked-up event, until `player.on` is handed
`undefined` and raises, which abandons the loop and `initPlayer`.  The result is the
callbacks registered, as pairs of event key and name, and whether the loop ran to its
end. -/
def registerBasicListeners : List String → List (String × String) × Bool
  | [] => ([], true)
  | event :: rest =>
    match lookupEvent (basicEventKey event) with
    | none => ([], false)
    | some key => ((key, event) :: (registerBasicListeners rest).1,
        (registerBasicListeners rest).2)

/-- The logging callbacks that `initPlayer` registered. -/
def basicListeners : List (String × String) := (registerBasicListeners events).1

/-- The logging callbacks (player.js:167-169) invoked by an event with constant name `key`:
each one calls `logEvent(event)`. -/
def runBasicListeners (key : String) (r : Reading) (s : PlayerState) : PlayerState :=
  basicListeners.foldl
    (fun s l => if l.1 = key then
      { s with page := logEvent r l.2 s.page } else s)
    s

/-- A player event.  The first six are the events the file subscribes to by their
constant; `other key` is any other event of the library, `key` being the name of its
constant (for instance `"ERROR"`). -/
inductive Event where
  | playbackStarted (r : Reading)
  | qualityChangeRendered (newQuality : ℚ) (r : Reading)
  | bufferLevelUpdated (bufferLevel : ℚ)
  | bufferEmpty (r : Reading)
  | bufferLoaded (rs : Nat → Reading)
  | streamInitialized (bitrates : List BitrateInfo)
  | other (key : String) (r : Reading)

/-- The effect of one player event: the listeners registered for it are invoked.  No
logging callback of `events.forEach` is registered under one of the six subscribed
constants (`runBasicListeners_subscribed`), so those are looked for on the other events
only. -/
def step (F : Fmt) (e : Event) (s : PlayerState) : PlayerState :=
  match e with
  | .playbackStarted r => onPlaybackStarted F r s
  | .qualityChangeRendered newQuality r => onQualityChangeRendered F newQuality r s
  | .bufferLevelUpdated bufferLevel => onBufferLevelUpdated F bufferLevel s
  | .bufferEmpty r => onBufferEmpty r s
  | .bufferLoaded rs => onBufferLoadedEvent F rs s
  | .streamInitialized bitrates => onStreamInitialized F bitrates s
  | .other key r => runBasicListeners key r s

/-- The effect of a sequence of player events, the first of the list first. -/
def run (F : Fmt) (evs : List Event) (s : PlayerState) : PlayerState :=
  evs.foldl (fun s e => step F e s) s

/-- The state once `initPlayer` (player.js:43-174) has run, to its end or to the call of
`player.on` that raises at player.js:167; the listeners of player.js:68-149 are registered
before that loop.  `startTime` is the clock value read at player.js:64 and `page` the page
as loaded. -/
def initPlayer (startTime : ℚ) (page : Page) : PlayerState :=
  { stats := initialStats
    page := page
    startTime := startTime
    playbackStarted := false
    loadedListeners := []
    nextListenerId := 0 }

/-- The function `calculateStatistics` (player.js:177-213); `bufferLength` is the value of
`player.getBufferLength()`.  The returned object is the field `stats` of the result. -/
def calculateStatistics (F : Fmt) (bufferLength : ℚ) (s : PlayerState) : PlayerState :=
  let acc := s.stats.switchHistory.foldl
    (fun (acc : ℚ × Nat) switchEvent => (acc.1 + switchEvent.to_, acc.2 + 1)) (0, 0)
  let qualitySum := acc.1
  let qualityCount := acc.2
  let stats : Stats := { s.stats with
    averageQuality := if qualityCount > 0 then qualitySum / qualityCount
      else s.stats.lastQuality }
  let html :=
    "\n                <h3>Playback Statistics</h3>" ++
    "\n                <p>Initial delay: " ++ F.toFixed2 stats.initialDelay ++ " seconds</p>" ++
    "\n                <p>Number of stalls: " ++ F.toStr stats.stallCount ++ "</p>" ++
    "\n                <p>Total stall duration: " ++ F.toFixed2 stats.totalStallDuration ++
      " seconds</p>" ++
    "\n                <p>Average stall duration: " ++
      (if stats.stallCount > 0 then F.toFixed2 (stats.totalStallDuration / stats.stallCount)
        else F.toStr 0) ++ " seconds</p>" ++
    "\n                <p>Quality changes: " ++ F.toStr stats.qualityChangeCount ++ "</p>" ++
    "\n                <p>Average quality index: " ++ F.toFixed2 stats.averageQuality ++ "</p>" ++
    "\n                <p>Current quality index: " ++ F.toStr stats.lastQuality ++ "</p>" ++
    "\n                <p>Current buffer level: " ++ F.toFixed2 bufferLength ++ " seconds</p>" ++
    "\n            "
  let line :=
    "Statistics: initial_delay=" ++ F.toFixed2 stats.initialDelay ++
    ",stall_count=" ++ F.toStr stats.stallCount ++
    ",stall_duration=" ++ F.toFixed2 stats.totalStallDuration ++
    ",quality_changes=" ++ F.toStr stats.qualityChangeCount ++
    ",avg_quality=" ++ F.toFixed2 stats.averageQuality
  { s with
    stats := stats
    page := { s.page with
      statsOutput := s.page.statsOutput.map (fun _ => html)
      console := s.page.console ++ [line] } }

/-- The function `window.getStats` (player.js:222-224), which exists when `initPlayer`
returned. -/
def getStats (F : Fmt) (bufferLength : ℚ) (s : PlayerState) : PlayerState :=
  calculateStatistics F bufferLength s

/-- The click listener of the statistics button (player.js:145-148). -/
def onStatsButtonClick (F : Fmt) (bufferLength : ℚ) (s : PlayerState) : PlayerState :=
  let s1 := calculateStatistics F bufferLength s
  { s1 with page := { s1.page with statsOutputDisplay := "block" } }

/-- A formatter used to evaluate the model on concrete inputs: integers are printed in
decimal, other rationals as numerator, slash, denominator. -/
def sampleFmt : Fmt :=
  { toStr := fun x => toString x
    toFixed2 := fun x => toString x }

/-- A reading at clock value `t`. -/
def sampleReading (t : ℚ) : Reading :=
  { now := t, date := 0, timeString := "12:00:00", bufferLength := 0 }

/-- A page whose elements are all empty. -/
def samplePage : Page :=
  { videoInfo := "", bufferLevel := "", qualityIndex := "", maxIndex := "",
    availableQualities := "", eventLog := [], statsOutput := some "",
    statsOutputDisplay := "none", console := [] }

/-! ## Notions used to state the properties -/

/-- The arithmetic mean of the `to` fields of a list of switch entries: their sum divided
by the number of entries. -/
def meanTo (h : List SwitchEvent) : ℚ := (h.map (fun e => e.to_)).sum / h.length

/-- The number of entries of type `"start"`. -/
def startCount (l : List BufferEvent) : Nat := (l.filter (fun e => e.type = "start")).length

/-- The number of entries of type `"end"`. -/
def endCount (l : List BufferEvent) : Nat := (l.filter (fun e => e.type = "end")).length

/-- The sum, in list order and starting from `0`, of the `duration` fields of the entries
of type `"end"`. -/
def endDurationSum (l : List BufferEvent) : ℚ :=
  ((l.filter (fun e => e.type = "end")).filterMap (fun e => e.duration)).foldl (· + ·) 0

/-- Whether an event is a `PLAYBACK_STARTED` event. -/
def Event.isPlaybackStarted : Event → Bool
  | .playbackStarted _ => true
  | _ => false

/-- The quality carried by an event, for a `QUALITY_CHANGE_RENDERED` event. -/
def Event.quality? : Event → Option ℚ
  | .qualityChangeRendered newQuality _ => some newQuality
  | _ => none

/-- The qualities reported by a sequence of events, in order. -/
def reportedQualities (evs : List Event) : List ℚ := evs.filterMap Event.quality?

/-- The UPPER_SNAKE_CASE form of a camelCase name: an underscore before every upper-case
letter, and every letter in upper case. -/
def upperSnakeCase (s : String) : String :=
  String.mk (s.data.foldr
    (fun c acc => if c.isUpper then '_' :: c :: acc else c.toUpper :: acc) [])

/-- A run used to evaluate the model: the qualities 1, 2, 2, 4 are reported, with a stall
that starts at clock value 5 and ends at 2000. -/
def sampleEvents : List Event :=
  [.qualityChangeRendered 1 (sampleReading 0), .qualityChangeRendered 2 (sampleReading 1),
   .bufferEmpty (sampleReading 5), .qualityChangeRendered 2 (sampleReading 6),
   .bufferLoaded (fun _ => sampleReading 2000), .qualityChangeRendered 4 (sampleReading 2500)]

/-! ## Frame lemmas -/

theorem run_nil (F : Fmt) (s : PlayerState) : run F [] s = s := rfl

theorem run_cons (F : Fmt) (e : Event) (evs : List Event) (s : PlayerState) :
    run F (e :: evs) s = run F evs (step F e s) := rfl

theorem run_append (F : Fmt) (evs evs2 : List Event) (s : PlayerState) :
    run F (evs ++ evs2) s = run F evs2 (run F evs s) := by
  simp [run, List.foldl_append]

theorem run_concat (F : Fmt) (evs : List Event) (e : Event) (s : PlayerState) :
    run F (evs ++ [e]) s = step F e (run F evs s) := by
  simp [run, List.foldl_append]

/-- A property that holds initially and is kept by every event holds after every run. -/
theorem run_induction (F : Fmt) (P : PlayerState → Prop)
    (hstep : ∀ e s, P s → P (step F e s)) (evs : List Event) (s : PlayerState) (h0 : P s) :
    P (run F evs s) := by
  induction evs generalizing s with
  | nil => exact h0
  | cons e evs ih => exact ih _ (hstep e s h0)

/-- The basic logging callbacks change the page only. -/
theorem runBasicListeners_frame (key : String) (r : Reading) (s : PlayerState) :
    ∃ page, runBasicListeners key r s = { s with page := page } := by
  unfold runBasicListeners
  generalize basicListeners = l
  induction l generalizing s with
  | nil => exact ⟨s.page, rfl⟩
  | cons x l ih =>
    simp only [List.foldl_cons]
    split
    · obtain ⟨page, h⟩ := ih { s with page := logEvent r x.2 s.page }
      exact ⟨page, by rw [h]⟩
    · exact ih s

/-- The invocation of `onBufferLoaded` listeners leaves the quality statistics, the stall
count, the initial delay and the locals of `initPlayer` as they are. -/
theorem fireLoaded_frame (F : Fmt) (rs : Nat → Reading) (ls : List LoadedListener) (i : Nat)
    (s : PlayerState) :
    (fireLoaded F rs ls i s).stats.switchHistory = s.stats.switchHistory ∧
    (fireLoaded F rs ls i s).stats.qualityChangeCount = s.stats.qualityChangeCount ∧
    (fireLoaded F rs ls i s).stats.lastQuality = s.stats.lastQuality ∧
    (fireLoaded F rs ls i s).stats.averageQuality = s.stats.averageQuality ∧
    (fireLoaded F rs ls i s).stats.initialDelay = s.stats.initialDelay ∧
    (fireLoaded F rs ls i s).stats.stallCount = s.stats.stallCount ∧
    (fireLoaded F rs ls i s).startTime = s.startTime ∧
    (fireLoaded F rs ls i s).playbackStarted = s.playbackStarted := by
  induction ls generalizing i s with
  | nil => simp [fireLoaded]
  | cons l ls ih =>
    have h := ih (i + 1) (onBufferLoaded F l (rs i) s)
    simpa [fireLoaded, onBufferLoaded] using h

/-- An event that is not a quality event leaves the quality statistics as they are. -/
theorem step_quality_frame (F : Fmt) (e : Event) (s : PlayerState) (h : e.quality? = none) :
    (step F e s).stats.switchHistory = s.stats.switchHistory ∧
    (step F e s).stats.qualityChangeCount = s.stats.qualityChangeCount ∧
    (step F e s).stats.lastQuality = s.stats.lastQuality := by
  cases e with
  | qualityChangeRendered q r => simp [Event.quality?] at h
  | playbackStarted r =>
    simp only [step, onPlaybackStarted]
    split <;> simp
  | bufferLevelUpdated b => simp [step, onBufferLevelUpdated]
  | bufferEmpty r => simp [step, onBufferEmpty]
  | bufferLoaded rs =>
    have hf := fireLoaded_frame F rs s.loadedListeners 0 s
    exact ⟨hf.1, hf.2.1, hf.2.2.1⟩
  | streamInitialized bs => simp [step, onStreamInitialized]
  | other key r =>
    obtain ⟨page, hp⟩ := runBasicListeners_frame key r s
    simp [step, hp]

/-- The effect of a quality event on the quality statistics. -/
theorem step_quality (F : Fmt) (q : ℚ) (r : Reading) (s : PlayerState) :
    (step F (.qualityChangeRendered q r) s).stats.switchHistory =
      (if s.stats.lastQuality ≠ -1 ∧ s.stats.lastQuality ≠ q then
        s.stats.switchHistory ++ [{ timestamp := r.date, from_ := s.stats.lastQuality, to_ := q }]
       else s.stats.switchHistory) ∧
    (step F (.qualityChangeRendered q r) s).stats.qualityChangeCount =
      (if s.stats.lastQuality ≠ -1 ∧ s.stats.lastQuality ≠ q then
        s.stats.qualityChangeCount + 1 else s.stats.qualityChangeCount) ∧
    (step F (.qualityChangeRendered q r) s).stats.lastQuality = q := by
  simp only [step, onQualityChangeRendered]
  split <;> simp

/-- The loop of `calculateStatistics` adds the `to` fields to the sum and counts the
entries. -/
theorem foldl_qualitySum (h : List SwitchEvent) (a : ℚ) (n : Nat) :
    h.foldl (fun (acc : ℚ × Nat) switchEvent => (acc.1 + switchEvent.to_, acc.2 + 1)) (a, n)
      = (a + (h.map (fun e => e.to_)).sum, n + h.length) := by
  induction h generalizing a n with
  | nil => simp
  | cons e h ih =>
    simp only [List.foldl_cons, ih, List.map_cons, List.sum_cons, List.length_cons]
    refine Prod.ext ?_ ?_
    · simp only []; ring
    · simp only []; omega

/-- No logging callback is registered under a constant the file subscribes to: the events
handled by the other listeners invoke no logging callback. -/
theorem runBasicListeners_subscribed (key : String) (hk : key ∈ subscribedKeys) (r : Reading)
    (s : PlayerState) : runBasicListeners key r s = s := by
  have h : ∀ l ∈ basicListeners, l.1 ≠ key := by
    intro l hl hkey
    have hd : ∀ l ∈ basicListeners, l.1 ∉ subscribedKeys := by decide
    exact hd l hl (hkey ▸ hk)
  unfold runBasicListeners
  generalize basicListeners = ls at h
  induction ls generalizing s with
  | nil => rfl
  | cons x ls ih =>
    simp only [List.foldl_cons, if_neg (h x (List.mem_cons_self _ _))]
    exact ih s (fun y hy => h y (List.mem_cons_of_mem _ hy))

theorem reportedQualities_concat (evs : List Event) (e : Event) :
    reportedQualities (evs ++ [e]) = reportedQualities evs ++ (e.quality?).toList := by
  cases h : e.quality? <;> simp [reportedQualities, List.filterMap_append, h]

theorem chain_invariant (F : Fmt) (startTime : ℚ) (page : Page) (evs : List Event)
    (hq : ∀ q ∈ reportedQualities evs, q ≠ -1) :
    (∀ e ∈ (run F evs (initPlayer startTime page)).stats.switchHistory, e.from_ ≠ e.to_) ∧
    List.Chain' (fun a b : SwitchEvent => b.from_ = a.to_)
      (run F evs (initPlayer startTime page)).stats.switchHistory ∧
    (∀ e, (run F evs (initPlayer startTime page)).stats.switchHistory.head? = some e →
      (reportedQualities evs).head? = some e.from_) ∧
    (∀ e, (run F evs (initPlayer startTime page)).stats.switchHistory.getLast? = some e →
      e.to_ = (run F evs (initPlayer startTime page)).stats.lastQuality) ∧
    ((run F evs (initPlayer startTime page)).stats.switchHistory = [] →
      ∀ q ∈ reportedQualities evs, q = (run F evs (initPlayer startTime page)).stats.lastQuality) ∧
    (reportedQualities evs = [] →
      (run F evs (initPlayer startTime page)).stats.lastQuality = -1) ∧
    (reportedQualities evs ≠ [] →
      (run F evs (initPlayer startTime page)).stats.lastQuality ≠ -1) := by
  induction evs using List.reverseRecOn with
  | nil => simp [run_nil, reportedQualities, initPlayer, initialStats]
  | append_singleton evs e ih =>
    rw [reportedQualities_concat] at hq ⊢
    have ih := ih (fun q hm => hq q (List.mem_append_left _ hm))
    rw [run_concat]
    generalize run F evs (initPlayer startTime page) = s at ih ⊢
    generalize reportedQualities evs = Q at ih hq ⊢
    obtain ⟨i1, i2, i3, i4, i5, i6, i7⟩ := ih
    cases hqe : e.quality? with
    | none =>
      obtain ⟨h1, _, h3⟩ := step_quality_frame F e s hqe
      simp only [h1, h3, Option.toList, List.append_nil]
      exact ⟨i1, i2, i3, i4, i5, i6, i7⟩
    | some q =>
      cases e <;> simp [Event.quality?] at hqe
      subst hqe
      rename_i q r
      have hq1 : q ≠ -1 := hq q (by simp [Event.quality?])
      obtain ⟨h1, _, h3⟩ := step_quality F q r s
      rw [h1, h3]
      simp only [Option.toList]
      by_cases hc : s.stats.lastQuality ≠ -1 ∧ s.stats.lastQuality ≠ q
      · rw [if_pos hc]
        have hQ : Q ≠ [] := fun h => hc.1 (i6 h)
        refine ⟨?_, ?_, ?_, ?_, ?_, ?_, ?_⟩
        · intro e he
          rcases List.mem_append.1 he with he | he
          · exact i1 e he
          · simp only [List.mem_singleton] at he
            subst he
            exact hc.2
        · refine List.chain'_append.2 ⟨i2, List.chain'_singleton _, ?_⟩
          intro x hx y hy
          simp only [List.head?_cons, Option.mem_def, Option.some.injEq] at hy
          subst hy
          exact (i4 x hx).symm
        · intro e he
          cases hH : s.stats.switchHistory with
          | nil =>
            rw [hH] at he
            simp only [List.nil_append, List.head?_cons, Option.some.injEq] at he
            subst he
            cases Q with
            | nil => exact absurd rfl hQ
            | cons q0 Q2 =>
              have := i5 hH q0 (by simp)
              simp [this]
          | cons e0 H2 =>
            rw [hH] at he
            simp only [List.cons_append, List.head?_cons, Option.some.injEq] at he
            subst he
            have := i3 e0 (by simp [hH])
            cases Q with
            | nil => exact absurd rfl hQ
            | cons q0 Q2 => simpa using this
        · intro e he
          rw [List.getLast?_concat] at he
          simp only [Option.some.injEq] at he
          subst he
          rfl
        · intro h
          simp at h
        · intro h
          simp at h
        · intro _
          exact hq1
      · rw [if_neg hc]
        by_cases hl : s.stats.lastQuality = q
        · refine ⟨i1, i2, ?_, ?_, ?_, ?_, ?_⟩
          · intro e he
            have := i3 e he
            cases Q with
            | nil => simp at this
            | cons q0 Q2 => simpa using this
          · intro e he
            rw [i4 e he, hl]
          · intro hH q2 hq2
            rcases List.mem_append.1 hq2 with hm | hm
            · rw [i5 hH q2 hm, hl]
            · simpa using hm
          · intro h
            simp at h
          · intro _
            exact hq1
        · have hm1 : s.stats.lastQuality = -1 := by
            by_contra hne
            exact hc ⟨hne, hl⟩
          have hQ : Q = [] := by
            by_contra hne
            exact i7 hne hm1
          have hH : s.stats.switchHistory = [] := by
            cases hH : s.stats.switchHistory with
            | nil => rfl
            | cons e0 H2 =>
              have := i3 e0 (by simp [hH])
              simp [hQ] at this
          subst hQ
          simp [hH, hq1]

theorem step_startTime (F : Fmt) (e : Event) (s : PlayerState) :
    (step F e s).startTime = s.startTime := by
  cases e with
  | playbackStarted r =>
    simp only [step, onPlaybackStarted]
    split <;> rfl
  | qualityChangeRendered q r => rfl
  | bufferLevelUpdated b => rfl
  | bufferEmpty r => rfl
  | bufferLoaded rs => exact (fireLoaded_frame F rs s.loadedListeners 0 s).2.2.2.2.2.2.1
  | streamInitialized bs => rfl
  | other key r =>
    obtain ⟨page, hp⟩ := runBasicListeners_frame key r s
    simp [step, hp]

/-- Once `playbackStarted` is set, no event clears it or changes the initial delay. -/
theorem step_started (F : Fmt) (e : Event) (s : PlayerState) (h : s.playbackStarted = true) :
    (step F e s).playbackStarted = true ∧
    (step F e s).stats.initialDelay = s.stats.initialDelay := by
  cases e with
  | playbackStarted r => simp [step, onPlaybackStarted, h]
  | qualityChangeRendered q r =>
    simp only [step, onQualityChangeRendered]
    split <;> simp [h]
  | bufferLevelUpdated b => simp [step, onBufferLevelUpdated, h]
  | bufferEmpty r => simp [step, onBufferEmpty, h]
  | bufferLoaded rs =>
    have hf := fireLoaded_frame F rs s.loadedListeners 0 s
    exact ⟨hf.2.2.2.2.2.2.2.trans h, hf.2.2.2.2.1⟩
  | streamInitialized bs => simp [step, onStreamInitialized, h]
  | other key r =>
    obtain ⟨page, hp⟩ := runBasicListeners_frame key r s
    simp [step, hp, h]

/-- An event other than `PLAYBACK_STARTED` leaves the flag `playbackStarted` as it is. -/
theorem step_not_started (F : Fmt) (e : Event) (s : PlayerState)
    (he : e.isPlaybackStarted = false) :
    (step F e s).playbackStarted = s.playbackStarted := by
  cases e with
  | playbackStarted r => simp [Event.isPlaybackStarted] at he
  | qualityChangeRendered q r => rfl
  | bufferLevelUpdated b => rfl
  | bufferEmpty r => rfl
  | bufferLoaded rs => exact (fireLoaded_frame F rs s.loadedListeners 0 s).2.2.2.2.2.2.2
  | streamInitialized bs => rfl
  | other key r =>
    obtain ⟨page, hp⟩ := runBasicListeners_frame key r s
    simp [step, hp]

theorem run_startTime (F : Fmt) (evs : List Event) (s : PlayerState) :
    (run F evs s).startTime = s.startTime := by
  induction evs generalizing s with
  | nil => rfl
  | cons e evs ih => rw [run_cons, ih, step_startTime]

theorem run_started (F : Fmt) (evs : List Event) (s : PlayerState)
    (h : s.playbackStarted = true) :
    (run F evs s).stats.initialDelay = s.stats.initialDelay := by
  induction evs generalizing s with
  | nil => rfl
  | cons e evs ih =>
    rw [run_cons, ih _ (step_started F e s h).1, (step_started F e s h).2]

theorem run_not_started (F : Fmt) (evs : List Event) (s : PlayerState)
    (he : ∀ e ∈ evs, e.isPlaybackStarted = false) :
    (run F evs s).playbackStarted = s.playbackStarted := by
  induction evs generalizing s with
  | nil => rfl
  | cons e evs ih =>
    rw [run_cons, ih _ (fun e2 h2 => he e2 (List.mem_cons_of_mem _ h2)),
      step_not_started F e s (he e (List.mem_cons_self _ _))]

theorem startCount_concat (l : List BufferEvent) (e : BufferEvent) :
    startCount (l ++ [e]) = startCount l + (if e.type = "start" then 1 else 0) := by
  unfold startCount
  rw [List.filter_append, List.length_append]
  by_cases h : e.type = "start" <;> simp [List.filter_cons, h]

theorem endCount_concat (l : List BufferEvent) (e : BufferEvent) :
    endCount (l ++ [e]) = endCount l + (if e.type = "end" then 1 else 0) := by
  unfold endCount
  rw [List.filter_append, List.length_append]
  by_cases h : e.type = "end" <;> simp [List.filter_cons, h]

theorem endDurationSum_concat_start (l : List BufferEvent) (e : BufferEvent)
    (h : e.type = "start") : endDurationSum (l ++ [e]) = endDurationSum l := by
  have h2 : ¬ e.type = "end" := by rw [h]; decide
  simp [endDurationSum, List.filter_append, List.filter_cons, h2]

theorem endDurationSum_concat_end (l : List BufferEvent) (e : BufferEvent) (d : ℚ)
    (h : e.type = "end") (hd : e.duration = some d) :
    endDurationSum (l ++ [e]) = endDurationSum l + d := by
  simp [endDurationSum, List.filter_append, List.filter_cons, h, List.filterMap_append, hd,
    List.foldl_append]

/-- The stall statistics after the invocation of the listeners `ls`. -/
theorem fireLoaded_stall (F : Fmt) (rs : Nat → Reading) (ls : List LoadedListener) (i : Nat)
    (s : PlayerState) :
    startCount (fireLoaded F rs ls i s).stats.bufferEvents = startCount s.stats.bufferEvents ∧
    endCount (fireLoaded F rs ls i s).stats.bufferEvents
      = endCount s.stats.bufferEvents + ls.length ∧
    (s.stats.totalStallDuration = endDurationSum s.stats.bufferEvents →
      (fireLoaded F rs ls i s).stats.totalStallDuration
        = endDurationSum (fireLoaded F rs ls i s).stats.bufferEvents) := by
  induction ls generalizing i s with
  | nil => simp [fireLoaded]
  | cons l ls ih =>
    obtain ⟨h1, h2, h3⟩ := ih (i + 1) (onBufferLoaded F l (rs i) s)
    simp only [fireLoaded]
    refine ⟨?_, ?_, ?_⟩
    · rw [h1]
      simp [onBufferLoaded, startCount_concat]
    · rw [h2]
      simp only [onBufferLoaded, endCount_concat, List.length_cons]
      simp
      omega
    · intro h
      apply h3
      simp only [onBufferLoaded]
      rw [endDurationSum_concat_end _ _ _ rfl rfl, h]

/-- The listeners left registered after the invocation of the listeners `ls`: each invoked
listener removed itself. -/
theorem fireLoaded_listeners (F : Fmt) (rs : Nat → Reading) (ls : List LoadedListener) (i : Nat)
    (s : PlayerState) :
    (fireLoaded F rs ls i s).loadedListeners
      = s.loadedListeners.filter (fun m => decide (∀ l ∈ ls, m.id ≠ l.id)) := by
  induction ls generalizing i s with
  | nil => simp [fireLoaded]
  | cons l ls ih =>
    simp only [fireLoaded]
    rw [ih]
    simp only [onBufferLoaded, List.filter_filter]
    congr 1
    funext m
    simp [Bool.and_comm]

theorem onBufferLoadedEvent_listeners (F : Fmt) (rs : Nat → Reading) (s : PlayerState) :
    (onBufferLoadedEvent F rs s).loadedListeners = [] := by
  unfold onBufferLoadedEvent
  rw [fireLoaded_listeners, List.filter_eq_nil_iff]
  intro m hm
  simp only [decide_eq_true_eq, not_forall]
  exact ⟨m, hm, fun h => h rfl⟩

/-- The stall statistics and the registered listeners agree in every reachable state. -/
theorem stall_invariant (F : Fmt) (startTime : ℚ) (page : Page) (evs : List Event) :
    (run F evs (initPlayer startTime page)).stats.stallCount
      = startCount (run F evs (initPlayer startTime page)).stats.bufferEvents ∧
    (run F evs (initPlayer startTime page)).stats.totalStallDuration
      = endDurationSum (run F evs (initPlayer startTime page)).stats.bufferEvents ∧
    endCount (run F evs (initPlayer startTime page)).stats.bufferEvents
      + (run F evs (initPlayer startTime page)).loadedListeners.length
      = (run F evs (initPlayer startTime page)).stats.stallCount := by
  refine run_induction F
    (fun s => s.stats.stallCount = startCount s.stats.bufferEvents ∧
      s.stats.totalStallDuration = endDurationSum s.stats.bufferEvents ∧
      endCount s.stats.bufferEvents + s.loadedListeners.length = s.stats.stallCount)
    ?_ evs _ (by simp [initPlayer, initialStats, startCount, endCount, endDurationSum])
  intro e s ⟨h1, h2, h3⟩
  cases e with
  | playbackStarted r =>
    simp only [step, onPlaybackStarted]
    split
    · exact ⟨h1, h2, h3⟩
    · exact ⟨h1, h2, h3⟩
  | qualityChangeRendered q r =>
    simp only [step, onQualityChangeRendered]
    split
    · exact ⟨h1, h2, h3⟩
    · exact ⟨h1, h2, h3⟩
  | bufferLevelUpdated b => exact ⟨h1, h2, h3⟩
  | bufferEmpty r =>
    simp only [step, onBufferEmpty]
    refine ⟨?_, ?_, ?_⟩
    · rw [startCount_concat, h1]
      simp
    · rw [endDurationSum_concat_start _ _ rfl, h2]
    · rw [endCount_concat, List.length_append, ← h3]
      simp
      omega
  | bufferLoaded rs =>
    obtain ⟨f1, f2, f3⟩ := fireLoaded_stall F rs s.loadedListeners 0 s
    have f4 := (fireLoaded_frame F rs s.loadedListeners 0 s).2.2.2.2.2.1
    have f5 := onBufferLoadedEvent_listeners F rs s
    simp only [step]
    simp only [onBufferLoadedEvent] at f5 ⊢
    refine ⟨?_, f3 h2, ?_⟩
    · rw [f4, f1, h1]
    · rw [f2, f5, f4, ← h3]
      simp
  | streamInitialized bs => exact ⟨h1, h2, h3⟩
  | other key r =>
    obtain ⟨page, hp⟩ := runBasicListeners_frame key r s
    simp only [step, hp]
    exact ⟨h1, h2, h3⟩

/-! ## The properties -/

/-- C1: `calculateStatistics` sets `stats.averageQuality` to the arithmetic mean of the `to`
fields of the entries of `stats.switchHistory` (their sum divided by the number of
entries) when that list is not empty, and to `stats.lastQuality` when it is empty; the
list and `lastQuality` are those recorded before the call, and the call keeps both, so
the same holds of the record after the call. -/
theorem calculateStatistics_averageQuality (F : Fmt) (bufferLength : ℚ) (s : PlayerState) :
    (calculateStatistics F bufferLength s).stats.averageQuality =
      (if s.stats.switchHistory = [] then s.stats.lastQuality
       else meanTo s.stats.switchHistory) ∧
    (calculateStatistics F bufferLength s).stats.switchHistory = s.stats.switchHistory ∧
    (calculateStatistics F bufferLength s).stats.lastQuality = s.stats.lastQuality ∧
    (calculateStatistics F bufferLength s).stats.averageQuality =
      (if (calculateStatistics F bufferLength s).stats.switchHistory = [] then
        (calculateStatistics F bufferLength s).stats.lastQuality
       else meanTo (calculateStatistics F bufferLength s).stats.switchHistory) := by
  have h : (calculateStatistics F bufferLength s).stats.averageQuality =
      (if s.stats.switchHistory = [] then s.stats.lastQuality
       else meanTo s.stats.switchHistory) := by
    simp only [calculateStatistics, foldl_qualitySum, meanTo, zero_add]
    cases hh : s.stats.switchHistory with
    | nil => simp
    | cons e h => simp
  exact ⟨h, rfl, rfl, h⟩

/-- C2: a quality event with quality `q` arriving when `lastQuality` is `p` appends exactly
the entry from `p` to `q` at the end of `switchHistory` when `p` is not `-1` and differs
from `q`, leaves `switchHistory` unchanged otherwise, and in both cases sets `lastQuality`
to `q`; so after any run `lastQuality` is the quality of the most recent quality event
(and its former value when the run had none). -/
theorem qualityChangeRendered_effect (F : Fmt) (q : ℚ) (r : Reading) (s : PlayerState)
    (evs : List Event) :
    (step F (.qualityChangeRendered q r) s).stats.switchHistory =
      (if s.stats.lastQuality ≠ -1 ∧ s.stats.lastQuality ≠ q then
        s.stats.switchHistory ++ [{ timestamp := r.date, from_ := s.stats.lastQuality, to_ := q }]
       else s.stats.switchHistory) ∧
    (step F (.qualityChangeRendered q r) s).stats.lastQuality = q ∧
    (run F evs s).stats.lastQuality = ((reportedQualities evs).getLast?).getD s.stats.lastQuality := by
  refine ⟨(step_quality F q r s).1, (step_quality F q r s).2.2, ?_⟩
  induction evs using List.reverseRecOn with
  | nil => simp [run_nil, reportedQualities]
  | append_singleton evs e ih =>
    rw [run_concat]
    cases hq : e.quality? with
    | none =>
      rw [(step_quality_frame F e _ hq).2.2, ih]
      simp [reportedQualities, List.filterMap_append, hq]
    | some q2 =>
      cases e <;> simp [Event.quality?] at hq
      subst hq
      rw [(step_quality F _ _ _).2.2]
      simp [reportedQualities, List.filterMap_append, Event.quality?]

/-- C8: in every state reached from the initial one by a sequence of player events,
`stats.qualityChangeCount` is the length of `stats.switchHistory`. -/
theorem qualityChangeCount_eq_length (F : Fmt) (startTime : ℚ) (page : Page)
    (evs : List Event) :
    (run F evs (initPlayer startTime page)).stats.qualityChangeCount =
      (run F evs (initPlayer startTime page)).stats.switchHistory.length := by
  refine run_induction F
    (fun s => s.stats.qualityChangeCount = s.stats.switchHistory.length) ?_ evs _ rfl
  intro e s hs
  cases hq : e.quality? with
  | none =>
    obtain ⟨h1, h2, _⟩ := step_quality_frame F e s hq
    simp only [h1, h2, hs]
  | some q =>
    cases e <;> simp [Event.quality?] at hq
    obtain ⟨h1, h2, _⟩ := step_quality F q ‹Reading› s
    subst hq
    rw [h1, h2]
    split <;> simp [hs]

/-- C3: the first `PLAYBACK_STARTED` event of a run after `initPlayer`, arriving at clock
value `r.now`, sets `stats.initialDelay` to `(r.now - startTime) / 1000`, and whatever
events follow, further `PLAYBACK_STARTED` events included, the value stays. -/
theorem initialDelay_set_once (F : Fmt) (startTime : ℚ) (page : Page) (pre post : List Event)
    (r : Reading) (hpre : ∀ e ∈ pre, e.isPlaybackStarted = false) :
    (run F (pre ++ Event.playbackStarted r :: post) (initPlayer startTime page)).stats.initialDelay
      = (r.now - startTime) / 1000 := by
  rw [run_append, run_cons]
  have h1 := run_not_started F pre (initPlayer startTime page) hpre
  have h2 := run_startTime F pre (initPlayer startTime page)
  generalize run F pre (initPlayer startTime page) = s at h1 h2
  have h3 : s.playbackStarted = false := h1
  have h4 : s.startTime = startTime := h2
  rw [run_started F post _ (by simp [step, onPlaybackStarted, h3])]
  simp [step, onPlaybackStarted, h3, h4]

/-- Witness of C3: a stall, then `PLAYBACK_STARTED` at clock value 1500 with `startTime`
500, then a second `PLAYBACK_STARTED` at 9000. -/
theorem initialDelay_set_once_witness :
    (∀ e ∈ [Event.bufferEmpty (sampleReading 100)], e.isPlaybackStarted = false) ∧
    (run sampleFmt ([Event.bufferEmpty (sampleReading 100)] ++
        Event.playbackStarted (sampleReading 1500) ::
          [Event.playbackStarted (sampleReading 9000)])
      (initPlayer 500 samplePage)).stats.initialDelay = ((sampleReading 1500).now - 500) / 1000 :=
  ⟨by decide,
   initialDelay_set_once sampleFmt 500 samplePage [Event.bufferEmpty (sampleReading 100)]
     [Event.playbackStarted (sampleReading 9000)] (sampleReading 1500) (by decide)⟩

/-- C4: in every state reached from the initial one by a sequence of player events,
`stats.stallCount` is the number of `"start"` entries of `stats.bufferEvents`, and
`stats.totalStallDuration` is the sum, in list order from `0`, of the durations of its
`"end"` entries. -/
theorem stall_statistics_cumulative (F : Fmt) (startTime : ℚ) (page : Page)
    (evs : List Event) :
    (run F evs (initPlayer startTime page)).stats.stallCount
      = startCount (run F evs (initPlayer startTime page)).stats.bufferEvents ∧
    (run F evs (initPlayer startTime page)).stats.totalStallDuration
      = endDurationSum (run F evs (initPlayer startTime page)).stats.bufferEvents :=
  ⟨(stall_invariant F startTime page evs).1, (stall_invariant F startTime page evs).2.1⟩

/-- C5, as the claim states it, fails: on the state right after `initPlayer`,
`calculateStatistics` changes `stats.averageQuality` from `0` to `-1`. -/
theorem calculateStatistics_changes_stats :
    (initPlayer 0 samplePage).stats.averageQuality = 0 ∧
    (calculateStatistics sampleFmt 0 (initPlayer 0 samplePage)).stats.averageQuality = -1 ∧
    (getStats sampleFmt 0 (initPlayer 0 samplePage)).stats ≠ (initPlayer 0 samplePage).stats ∧
    (onStatsButtonClick sampleFmt 0 (initPlayer 0 samplePage)).stats
      ≠ (initPlayer 0 samplePage).stats := by
  decide

/-- C5, amended: computing the statistics on demand, through `window.getStats` or the
statistics button, overwrites `stats.averageQuality` with the derived average and leaves
every other field of `stats`, the locals of `initPlayer` and the registered listeners equal
to their values before the call. -/
theorem calculateStatistics_frame (F : Fmt) (bufferLength : ℚ) (s : PlayerState) :
    (calculateStatistics F bufferLength s).stats =
      { s.stats with averageQuality :=
          if s.stats.switchHistory = [] then s.stats.lastQuality
          else meanTo s.stats.switchHistory } ∧
    (getStats F bufferLength s).stats = (calculateStatistics F bufferLength s).stats ∧
    (onStatsButtonClick F bufferLength s).stats = (calculateStatistics F bufferLength s).stats ∧
    (calculateStatistics F bufferLength s).startTime = s.startTime ∧
    (calculateStatistics F bufferLength s).playbackStarted = s.playbackStarted ∧
    (calculateStatistics F bufferLength s).loadedListeners = s.loadedListeners := by
  refine ⟨?_, rfl, rfl, rfl, rfl, rfl⟩
  simp only [calculateStatistics, foldl_qualitySum, meanTo, zero_add]
  cases hh : s.stats.switchHistory with
  | nil => simp
  | cons e h => simp

/-- C6, evaluated on the code: the loop that registers the logging callbacks is abandoned
at its first name, `"playbackStarted"`, whose key `"PLAYBACKSTARTED"` is no event constant,
so no callback is registered for `"error"`; an `ERROR` event then appends nothing to the
event log (and leaves the statistics record as it is), where the claim has one item
appended.  Had the loop held the name `"error"` alone, the callback would be registered
under `"ERROR"`. -/
theorem error_event_not_logged (F : Fmt) (r : Reading) (s : PlayerState) :
    lookupEvent (basicEventKey "playbackStarted") = none ∧
    registerBasicListeners events = ([], false) ∧
    registerBasicListeners ["error"] = ([("ERROR", "error")], true) ∧
    (step F (.other "ERROR" r) s).page.eventLog = s.page.eventLog ∧
    (step F (.other "ERROR" r) s).page.eventLog ≠ s.page.eventLog ++ [r.timeString ++ " - error"] ∧
    (step F (.other "ERROR" r) s).stats = s.stats := by
  have hb : basicListeners = [] := by decide
  have hs : step F (.other "ERROR" r) s = s := by
    simp [step, runBasicListeners, hb]
  refine ⟨by decide, by decide, by decide, by rw [hs], ?_, by rw [hs]⟩
  rw [hs]
  intro h
  have := congrArg List.length h
  simp at this

/-- C7, evaluated on the code: the key looked up for `"playbackStarted"` is
`"PLAYBACKSTARTED"`, which is not the constant name `"PLAYBACK_STARTED"` used by the
initial-delay listener; of the five basic events only `"error"` is looked up under its
UPPER_SNAKE_CASE constant name, and no logging callback is invoked by a
`PLAYBACK_STARTED` event. -/
theorem basicEventKey_playbackStarted :
    basicEventKey "playbackStarted" = "PLAYBACKSTARTED" ∧
    upperSnakeCase "playbackStarted" = "PLAYBACK_STARTED" ∧
    basicEventKey "playbackStarted" ≠ "PLAYBACK_STARTED" ∧
    events.filter (fun name => basicEventKey name = upperSnakeCase name) = ["error"] ∧
    events.filter (fun name => basicEventKey name ∈ subscribedKeys) = [] := by
  decide

/-- C9: when every reported quality differs from `-1`, the recorded switches form a
chain: every entry has `from` different from `to`, each entry's `from` is the previous
entry's `to`, the first entry's `from` is the first quality reported, and the last
entry's `to` is `stats.lastQuality`. -/
theorem switchHistory_chain (F : Fmt) (startTime : ℚ) (page : Page) (evs : List Event)
    (hq : ∀ q ∈ reportedQualities evs, q ≠ -1) :
    (∀ e ∈ (run F evs (initPlayer startTime page)).stats.switchHistory, e.from_ ≠ e.to_) ∧
    List.Chain' (fun a b : SwitchEvent => b.from_ = a.to_)
      (run F evs (initPlayer startTime page)).stats.switchHistory ∧
    (∀ e, (run F evs (initPlayer startTime page)).stats.switchHistory.head? = some e →
      (reportedQualities evs).head? = some e.from_) ∧
    (∀ e, (run F evs (initPlayer startTime page)).stats.switchHistory.getLast? = some e →
      e.to_ = (run F evs (initPlayer startTime page)).stats.lastQuality) :=
  ⟨(chain_invariant F startTime page evs hq).1, (chain_invariant F startTime page evs hq).2.1,
   (chain_invariant F startTime page evs hq).2.2.1,
   (chain_invariant F startTime page evs hq).2.2.2.1⟩

/-- Witness of C9: the qualities 1, 2, 2, 4 are reported, with a stall in between. -/
theorem switchHistory_chain_witness :
    (∀ q ∈ reportedQualities sampleEvents, q ≠ -1) ∧
    (∀ e ∈ (run sampleFmt sampleEvents (initPlayer 0 samplePage)).stats.switchHistory,
      e.from_ ≠ e.to_) ∧
    List.Chain' (fun a b : SwitchEvent => b.from_ = a.to_)
      (run sampleFmt sampleEvents (initPlayer 0 samplePage)).stats.switchHistory ∧
    (∀ e, (run sampleFmt sampleEvents (initPlayer 0 samplePage)).stats.switchHistory.head?
        = some e → (reportedQualities sampleEvents).head? = some e.from_) ∧
    (∀ e, (run sampleFmt sampleEvents (initPlayer 0 samplePage)).stats.switchHistory.getLast?
        = some e →
      e.to_ = (run sampleFmt sampleEvents (initPlayer 0 samplePage)).stats.lastQuality) :=
  ⟨by decide, switchHistory_chain sampleFmt 0 samplePage sampleEvents (by decide)⟩

/-- C10: in every state reached from the initial one, the number of `"end"` entries plus
the number of registered `onBufferLoaded` listeners is `stats.stallCount` (so there are
never more `"end"` entries than stalls); a `BUFFER_LOADED` event leaves no
`onBufferLoaded` listener registered; and a `BUFFER_LOADED` event arriving when none is
registered changes nothing in `stats`. -/
theorem loaded_listeners_one_shot (F : Fmt) (startTime : ℚ) (page : Page) (evs : List Event)
    (rs : Nat → Reading) (s : PlayerState) :
    endCount (run F evs (initPlayer startTime page)).stats.bufferEvents
      + (run F evs (initPlayer startTime page)).loadedListeners.length
      = (run F evs (initPlayer startTime page)).stats.stallCount ∧
    endCount (run F evs (initPlayer startTime page)).stats.bufferEvents
      ≤ (run F evs (initPlayer startTime page)).stats.stallCount ∧
    (step F (.bufferLoaded rs) s).loadedListeners = [] ∧
    (s.loadedListeners = [] → (step F (.bufferLoaded rs) s).stats = s.stats) := by
  have h := (stall_invariant F startTime page evs).2.2
  refine ⟨h, by omega, onBufferLoadedEvent_listeners F rs s, ?_⟩
  intro hl
  simp [step, onBufferLoadedEvent, hl, fireLoaded]

/-- Witness of C10: a `BUFFER_LOADED` event right after `initPlayer`, when no listener is
registered. -/
theorem loaded_listeners_one_shot_witness :
    (initPlayer 0 samplePage).loadedListeners = [] ∧
    (step sampleFmt (.bufferLoaded (fun _ => sampleReading 7)) (initPlayer 0 samplePage)).stats
      = (initPlayer 0 samplePage).stats :=
  ⟨rfl, (loaded_listeners_one_shot sampleFmt 0 samplePage sampleEvents
    (fun _ => sampleReading 7) (initPlayer 0 samplePage)).2.2.2 rfl⟩

end DashPlayer
